import Mathlib

/-!
Verification development for the multi-table data-quality analysis pipeline
(`src/services/sqlParser.ts`: `generateContentWithRetry`, `mapGlobalRulesToTables`,
`analyzeSingleTable`, `analyzeDataQuality`).

The remote LLM call and `JSON.parse` are external effects; they are modelled as
explicit function parameters (`calls : Nat → CallResult` giving the outcome of
each attempt of one remote invocation, and `parse` giving the outcome of
`JSON.parse` on a response text).  The `Math.random()` jitter added to the
initial backoff delay is a `jitter` parameter.  Everything else is translated
directly from the TypeScript source; the instrumentation fields (`attempts`,
`sleeps`, `remoteAttempts`) record how many remote attempts were made and which
backoff sleeps were performed, so that call-count and backoff properties are
statable.
-/

namespace DQBot

/-- JS `String.prototype.includes`: `pat` occurs as a contiguous substring of `s`. -/
def stringIncludes (s pat : String) : Bool :=
  (List.range (s.data.length + 1)).any (fun i => pat.data.isPrefixOf (s.data.drop i))

/-- JS `String.prototype.trim`: strip leading and trailing whitespace. -/
def jsTrim (s : String) : String :=
  ⟨((s.data.dropWhile Char.isWhitespace).reverse.dropWhile Char.isWhitespace).reverse⟩

/-- JS `String.prototype.startsWith`. -/
def jsStartsWith (s pat : String) : Bool := pat.data.isPrefixOf s.data

/-- JS `String.prototype.endsWith`. -/
def jsEndsWith (s pat : String) : Bool := pat.data.isSuffixOf s.data

/-- The retry predicate of `generateContentWithRetry`:
`errorMessage.includes('429') || errorMessage.includes('RESOURCE_EXHAUSTED')`. -/
def isRateLimitMessage (msg : String) : Bool :=
  stringIncludes msg "429" || stringIncludes msg "RESOURCE_EXHAUSTED"

/-- The remote response object; only its `.text` property is consumed. -/
structure Response where
  text : String
deriving Repr, DecidableEq

deriving instance DecidableEq for Except

/-- Outcome of one attempt of `ai.models.generateContent`: either a response or a
thrown error, identified by its message (`e instanceof Error ? e.message : String(e)`). -/
inductive CallResult where
  | success : Response → CallResult
  | failure : String → CallResult
deriving Repr, DecidableEq

/-- What one invocation of `generateContentWithRetry` produced:
the returned response or the thrown error (`none` models a thrown `null`
`lastError`, possible only when `retries = 0`), together with the number of
attempts made and the list of backoff sleeps performed (in ms, in order). -/
structure RetryOutcome where
  result : Except (Option String) Response
  attempts : Nat
  sleeps : List Nat
deriving Repr, DecidableEq

/-- The JS message of a thrown value: the message itself, or `"null"` for a thrown
`null` (`String(null)`). -/
def thrownMessage : Option String → String
  | some m => m
  | none => "null"

/-- The `for (let i = 0; i < retries; i++)` loop of `generateContentWithRetry`:
`fuel` is the number of remaining iterations, `i` the current attempt index,
`delayMs` the current backoff delay, `lastError` the last captured error. -/
def retryGo (calls : Nat → CallResult) :
    Nat → Nat → Nat → Option String → List Nat → RetryOutcome
  | 0, i, _, lastError, sleeps => ⟨Except.error lastError, i, sleeps⟩
  | fuel + 1, i, delayMs, _, sleeps =>
    match calls i with
    | CallResult.success r => ⟨Except.ok r, i + 1, sleeps⟩
    | CallResult.failure msg =>
      if isRateLimitMessage msg then
        retryGo calls fuel (i + 1) (delayMs * 2) (some msg) (sleeps ++ [delayMs])
      else
        ⟨Except.error (some msg), i + 1, sleeps⟩

/-- `generateContentWithRetry(model, contents, config, retries, initialDelayMs)`.
`delayMs = initialDelayMs + Math.random() * 1000` is modelled by the `jitter`
parameter added once to the initial delay. -/
def generateContentWithRetry (calls : Nat → CallResult)
    (retries initialDelayMs jitter : Nat) : RetryOutcome :=
  retryGo calls retries 0 (initialDelayMs + jitter) none []

/-- `TableInput` (src/types.ts). -/
structure TableInput where
  id : String
  name : String
  stats : String
  schema : String
  samples : String
  rules : String
deriving Repr, DecidableEq

/-- `DataQualityInputs` (src/types.ts). -/
structure DataQualityInputs where
  tables : List TableInput
  rules : String
  history : String
deriving Repr, DecidableEq

/-- `Issue` (src/types.ts).  `severity` is kept as a raw string since the parsed
JSON is not validated against the `'Low' | 'Medium' | 'High'` union. -/
structure Issue where
  table_name : String
  column_name : Option String
  type : String
  description : String
  severity : String
  possible_cause : String
  impact : String
  recommendation : String
deriving Repr, DecidableEq

/-- `RuleEffectiveness` (src/types.ts), status kept as a raw string. -/
structure RuleEffectiveness where
  rule : String
  table_name : String
  status : String
  reasoning : String
deriving Repr, DecidableEq

/-- `RuleConflict` (src/types.ts). -/
structure RuleConflict where
  conflicting_rules : List String
  table_name : Option String
  description : String
  recommendation : String
deriving Repr, DecidableEq

/-- One entry of `inferred_relationships`. -/
structure InferredRelationship where
  to_table : String
  on_column : String
deriving Repr, DecidableEq

/-- `SingleTableAnalysisResult` as produced by the unvalidated
`JSON.parse(jsonText) as SingleTableAnalysisResult` cast: every section may be
absent (`undefined`), and `hotspot_score` is whatever integer the model wrote. -/
structure SingleTableAnalysisResult where
  issues_detected : Option (List Issue)
  rule_effectiveness : Option (List RuleEffectiveness)
  rule_conflicts : Option (List RuleConflict)
  inferred_relationships : Option (List InferredRelationship)
  hotspot_score : Option Int
deriving Repr, DecidableEq

/-- `SchemaNode` (src/types.ts). -/
structure SchemaNode where
  id : String
  label : String
deriving Repr, DecidableEq

/-- `SchemaEdge` (src/types.ts); `from` and `to` are Lean tokens, hence `from_`, `to_`. -/
structure SchemaEdge where
  from_ : String
  to_ : String
  label : String
deriving Repr, DecidableEq

/-- `Hotspot` (src/types.ts); the score is the raw model-reported integer. -/
structure Hotspot where
  tableName : String
  score : Int
deriving Repr, DecidableEq

/-- `SchemaVisualizationData` (src/types.ts, the variant used by sqlParser.ts). -/
structure SchemaVisualizationData where
  nodes : List SchemaNode
  edges : List SchemaEdge
  hotspots : List Hotspot
deriving Repr, DecidableEq

/-- `AggregatedAnalysisResult` (src/services/sqlParser.ts). -/
structure AggregatedAnalysisResult where
  issues : List Issue
  ruleEffectiveness : List RuleEffectiveness
  ruleConflicts : List RuleConflict
  schemaVisualizationData : Option SchemaVisualizationData
deriving Repr, DecidableEq

/-- `GlobalRuleMap = Record<string, string[]>`: an association list in JS-object
key insertion order. -/
abbrev GlobalRuleMap := List (String × List String)

/-- The minimal `errorResult` built in the catch-block of `analyzeSingleTable`. -/
def analysisErrorResult (table : TableInput) (msg : String) : SingleTableAnalysisResult :=
  { issues_detected := some [{
      table_name := table.name
      column_name := none
      type := "Analysis Error"
      description := "Failed to analyze this table. Error: " ++ msg
      severity := "High"
      possible_cause := "API error or malformed response."
      impact := "No data quality insights are available for this table."
      recommendation := "Check the browser console for details and try the analysis again." }]
    rule_effectiveness := some []
    rule_conflicts := some []
    inferred_relationships := none
    hotspot_score := none }

/-- What one `analyzeSingleTable` invocation produced: the `[table.name, result]`
tuple of the source, plus the number of remote attempts it made. -/
structure SingleTableRun where
  key : String
  result : SingleTableAnalysisResult
  attempts : Nat
deriving Repr, DecidableEq

/-- `analyzeSingleTable(table, allTableNames, applicableRules, history)`.
The remote call uses `retries = 3`, `initialDelayMs = 2000`.  The prompt's text
does not influence control flow, so `allTableNames`, `applicableRules` and
`history` are carried but unused; `parse` models `JSON.parse`. -/
def analyzeSingleTable (parse : String → Except String SingleTableAnalysisResult)
    (table : TableInput) (_allTableNames : List String)
    (_applicableRules _history : String)
    (calls : Nat → CallResult) (jitter : Nat) : SingleTableRun :=
  match (generateContentWithRetry calls 3 2000 jitter).result with
  | Except.error e =>
    ⟨table.name, analysisErrorResult table (thrownMessage e),
      (generateContentWithRetry calls 3 2000 jitter).attempts⟩
  | Except.ok resp =>
    if !(jsStartsWith (jsTrim resp.text) "\x7b" && jsEndsWith (jsTrim resp.text) "\x7d") then
      ⟨table.name, analysisErrorResult table "Invalid JSON response received from API.",
        (generateContentWithRetry calls 3 2000 jitter).attempts⟩
    else
      match parse (jsTrim resp.text) with
      | Except.error msg =>
        ⟨table.name, analysisErrorResult table msg,
          (generateContentWithRetry calls 3 2000 jitter).attempts⟩
      | Except.ok result =>
        ⟨table.name,
          { result with issues_detected := result.issues_detected.map (List.map (fun issue => { issue with table_name := table.name })) },
          (generateContentWithRetry calls 3 2000 jitter).attempts⟩

/-- The failure condition of `analyzeSingleTable`'s try-block, together with the
message of the exception it raises: a remote failure after retries, the
non-JSON guard, or a `JSON.parse` failure.  `none` means the try-block succeeds. -/
def singleTableFailure (parse : String → Except String SingleTableAnalysisResult)
    (calls : Nat → CallResult) (jitter : Nat) : Option String :=
  match (generateContentWithRetry calls 3 2000 jitter).result with
  | Except.error e => some (thrownMessage e)
  | Except.ok resp =>
    if !(jsStartsWith (jsTrim resp.text) "\x7b" && jsEndsWith (jsTrim resp.text) "\x7d") then
      some "Invalid JSON response received from API."
    else
      match parse (jsTrim resp.text) with
      | Except.error msg => some msg
      | Except.ok _ => none

/-- One element of the array `mapGlobalRulesToTables` parses:
`{rule, tables}`, duck-typed — either key may be missing (`tables := none`,
a missing `rule` collapsing to the falsy `""`). -/
structure RuleMapItem where
  rule : String
  tables : Option (List String)
deriving Repr, DecidableEq

/-- JS object property assignment `m[key] = value`: updates the value in place
if the key exists, otherwise appends the new key at the end. -/
def recordSet (m : GlobalRuleMap) (key : String) (value : List String) : GlobalRuleMap :=
  if m.any (fun p => p.1 == key) then
    m.map (fun p => if p.1 == key then (key, value) else p)
  else
    m ++ [(key, value)]

/-- What one `mapGlobalRulesToTables` invocation produced: the rule map and the
number of remote attempts made. -/
structure RuleMapRun where
  ruleMap : GlobalRuleMap
  remoteAttempts : Nat
deriving Repr, DecidableEq

/-- `mapGlobalRulesToTables(tables, globalRules)`; `parseItems` models
`JSON.parse` at the `{rule, tables}[]` shape. -/
def mapGlobalRulesToTables (parseItems : String → Except String (List RuleMapItem))
    (tables : List TableInput) (globalRules : String)
    (calls : Nat → CallResult) (jitter : Nat) : RuleMapRun :=
  if globalRules == "" || jsTrim globalRules == "" || tables.length == 0 then
    ⟨[], 0⟩
  else
    match (generateContentWithRetry calls 3 2000 jitter).result with
    | Except.error _ => ⟨[], (generateContentWithRetry calls 3 2000 jitter).attempts⟩
    | Except.ok resp =>
      match parseItems (jsTrim resp.text) with
      | Except.error _ => ⟨[], (generateContentWithRetry calls 3 2000 jitter).attempts⟩
      | Except.ok resultArray =>
        ⟨resultArray.foldl
          (fun m item =>
            if item.rule != "" && item.tables.isSome then
              recordSet m item.rule (item.tables.getD [])
            else m)
          [],
         (generateContentWithRetry calls 3 2000 jitter).attempts⟩

/-- The per-table applicable-rules string computed inside `analyzeDataQuality`:
global rules whose table list contains this table's name, concatenated with the
table's own rules, empty pieces dropped (`filter(Boolean)`). -/
def applicableRulesFor (table : TableInput) (ruleMap : GlobalRuleMap) : String :=
  let relevantGlobalRules :=
    String.intercalate "\n"
      ((ruleMap.filter (fun p => p.2.contains table.name)).map (fun p => p.1))
  String.intercalate "\n"
    (([table.rules, relevantGlobalRules]).filter (fun s => s != ""))

/-- The list of per-table analyses launched by `analyzeDataQuality`
(`inputs.tables.map(table => analyzeSingleTable(...))`); `remote` and `jitter`
give each table's remote-call behaviour. -/
def tableRuns (parse : String → Except String SingleTableAnalysisResult)
    (inputs : DataQualityInputs) (ruleMap : GlobalRuleMap)
    (remote : TableInput → Nat → CallResult) (jitter : TableInput → Nat) :
    List SingleTableRun :=
  inputs.tables.map (fun table =>
    analyzeSingleTable parse table (inputs.tables.map (fun t => t.name))
      (applicableRulesFor table ruleMap) inputs.history (remote table) (jitter table))

/-- `new Map(entries).get(key)`: for duplicate keys the last entry wins, so the
lookup scans the entry list from the back. -/
def jsMapGet (entries : List (String × SingleTableAnalysisResult)) (key : String) :
    Option SingleTableAnalysisResult :=
  (entries.reverse.find? (fun p => p.1 == key)).map (fun p => p.2)

/-- The mutable accumulators of the merge loop of `analyzeDataQuality`
(`allIssues`, `allEffectiveness`, `allConflicts`, `vizData`). -/
structure MergeAcc where
  issues : List Issue
  effectiveness : List RuleEffectiveness
  conflicts : List RuleConflict
  nodes : List SchemaNode
  edges : List SchemaEdge
  hotspots : List Hotspot
deriving Repr, DecidableEq

/-- The empty initial merge accumulator. -/
def emptyMergeAcc : MergeAcc := ⟨[], [], [], [], [], []⟩

/-- The body of `for (const table of inputs.tables)` in `analyzeDataQuality`:
look the table's result up by name, skip if absent, otherwise push issues,
effectiveness, conflicts, this table's node, the edges whose target is a known
table name, and the hotspot entry when a score is defined. -/
def mergeStep (entries : List (String × SingleTableAnalysisResult))
    (allTableNames : List String) (acc : MergeAcc) (table : TableInput) : MergeAcc :=
  match jsMapGet entries table.name with
  | none => acc
  | some result =>
    { issues := acc.issues ++ (result.issues_detected.getD [])
      effectiveness := acc.effectiveness ++ (result.rule_effectiveness.getD [])
      conflicts := acc.conflicts ++ (result.rule_conflicts.getD [])
      nodes := acc.nodes ++ [⟨table.name, table.name⟩]
      edges := acc.edges ++
        (((result.inferred_relationships.getD []).filter
            (fun rel => allTableNames.contains rel.to_table)).map
          (fun rel => ⟨table.name, rel.to_table, rel.on_column⟩))
      hotspots := acc.hotspots ++
        (match result.hotspot_score with
         | some score => [⟨table.name, score⟩]
         | none => []) }

/-- What one `analyzeDataQuality` invocation produced: the aggregated result and
the total number of remote attempts made across all per-table analyses. -/
structure AnalyzeRun where
  result : AggregatedAnalysisResult
  remoteAttempts : Nat
deriving Repr, DecidableEq

/-- `analyzeDataQuality(inputs, ruleMap)`: short-circuit on an empty table list,
run every per-table analysis, key the results by table name in a `Map`, then
merge in input order and derive the visualization dataset (`null` when there
are no nodes). -/
def analyzeDataQuality (parse : String → Except String SingleTableAnalysisResult)
    (inputs : DataQualityInputs) (ruleMap : GlobalRuleMap)
    (remote : TableInput → Nat → CallResult) (jitter : TableInput → Nat) : AnalyzeRun :=
  if inputs.tables.isEmpty then
    ⟨⟨[], [], [], none⟩, 0⟩
  else
    let allTableNames := inputs.tables.map (fun t => t.name)
    let runs := tableRuns parse inputs ruleMap remote jitter
    let entries := runs.map (fun r => (r.key, r.result))
    let acc := inputs.tables.foldl (mergeStep entries allTableNames) emptyMergeAcc
    ⟨⟨acc.issues, acc.effectiveness, acc.conflicts,
      if acc.nodes.length > 0 then some ⟨acc.nodes, acc.edges, acc.hotspots⟩ else none⟩,
      (runs.map (fun r => r.attempts)).sum⟩

/-! Derived views of the pipeline, used to state and prove its properties. -/

/-- The per-table analysis launched by `analyzeDataQuality` for one table of
`inputs.tables` (the element-wise view of `tableRuns`). -/
def ownRun (parse : String → Except String SingleTableAnalysisResult)
    (inputs : DataQualityInputs) (ruleMap : GlobalRuleMap)
    (remote : TableInput → Nat → CallResult) (jitter : TableInput → Nat)
    (table : TableInput) : SingleTableRun :=
  analyzeSingleTable parse table (inputs.tables.map (fun t => t.name))
    (applicableRulesFor table ruleMap) inputs.history (remote table) (jitter table)

/-- The `[tableName, result]` entry list from which `analyzeDataQuality` builds
its `Map`. -/
def tableEntries (parse : String → Except String SingleTableAnalysisResult)
    (inputs : DataQualityInputs) (ruleMap : GlobalRuleMap)
    (remote : TableInput → Nat → CallResult) (jitter : TableInput → Nat) :
    List (String × SingleTableAnalysisResult) :=
  (tableRuns parse inputs ruleMap remote jitter).map (fun r => (r.key, r.result))

/-- What one iteration of the merge loop appends for one table: its issues,
effectiveness entries, conflicts, node, surviving edges and hotspot entry
(all empty if the `Map` lookup fails). -/
def tableContribution (entries : List (String × SingleTableAnalysisResult))
    (allTableNames : List String) (table : TableInput) : MergeAcc :=
  match jsMapGet entries table.name with
  | none => emptyMergeAcc
  | some result =>
    { issues := result.issues_detected.getD []
      effectiveness := result.rule_effectiveness.getD []
      conflicts := result.rule_conflicts.getD []
      nodes := [⟨table.name, table.name⟩]
      edges := ((result.inferred_relationships.getD []).filter
          (fun rel => allTableNames.contains rel.to_table)).map
        (fun rel => ⟨table.name, rel.to_table, rel.on_column⟩)
      hotspots :=
        match result.hotspot_score with
        | some score => [⟨table.name, score⟩]
        | none => [] }

/-- Componentwise concatenation of merge accumulators. -/
def accAppend (a b : MergeAcc) : MergeAcc :=
  ⟨a.issues ++ b.issues, a.effectiveness ++ b.effectiveness, a.conflicts ++ b.conflicts,
   a.nodes ++ b.nodes, a.edges ++ b.edges, a.hotspots ++ b.hotspots⟩

/-- The merge accumulator over all tables, piecewise-concatenated. -/
def totalContribution (entries : List (String × SingleTableAnalysisResult))
    (allTableNames : List String) (tables : List TableInput) : MergeAcc :=
  (tables.map (tableContribution entries allTableNames)).foldr accAppend emptyMergeAcc

/-! Concrete fixtures used by the witness and counterexample theorems. -/

/-- A table named `t1`. -/
def tableOne : TableInput := ⟨"1", "t1", "", "", "", ""⟩

/-- A table named `t2`. -/
def tableTwo : TableInput := ⟨"2", "t2", "", "", "", ""⟩

/-- Two tables with the same name `dup` but different ids. -/
def tableDupA : TableInput := ⟨"a", "dup", "", "", "", ""⟩

/-- See `tableDupA`. -/
def tableDupB : TableInput := ⟨"b", "dup", "", "", "", ""⟩

/-- An input set over `t1` and `t2`. -/
def dqInputsTwo : DataQualityInputs := ⟨[tableOne, tableTwo], "", ""⟩

/-- An input set with a duplicated table name. -/
def dqInputsDup : DataQualityInputs := ⟨[tableDupA, tableDupB], "", ""⟩

/-- A remote attempt sequence that always fails with the rate-limit signal. -/
def callsAll429 : Nat → CallResult := fun _ => CallResult.failure "429"

/-- A remote attempt sequence that always fails with a non-retryable error. -/
def callsAuth : Nat → CallResult := fun _ => CallResult.failure "auth error"

/-- A remote attempt sequence that always succeeds with the body `{}`. -/
def callsOk : Nat → CallResult := fun _ => CallResult.success ⟨"{}"⟩

/-- A remote family where the call for `t1` always throws a non-retryable
`boom` and every other table's call returns `{}`. -/
def remoteMixed : TableInput → Nat → CallResult :=
  fun t _ => if t.name == "t1" then CallResult.failure "boom" else CallResult.success ⟨"{}"⟩

/-- A remote family that succeeds for every table with the body `{}`. -/
def remoteAllOk : TableInput → Nat → CallResult :=
  fun _ _ => CallResult.success ⟨"{}"⟩

/-- A remote family distinguishing the two `dup` tables by id through the
response body. -/
def remoteDup : TableInput → Nat → CallResult :=
  fun t _ => CallResult.success ⟨if t.id == "a" then "{1}" else "{2}"⟩

/-- Zero jitter for every table. -/
def jitterZero : TableInput → Nat := fun _ => 0

/-- A `JSON.parse` outcome giving every table an empty analysis. -/
def parseEmptyOk : String → Except String SingleTableAnalysisResult :=
  fun _ => Except.ok ⟨some [], some [], some [], some [], some 0⟩

/-- A `JSON.parse` outcome whose issue carries a wrong `table_name`, whose
relationships point at the known `t1` and the unknown `ghost`, and whose
hotspot score is negative. -/
def parseScoreNeg : String → Except String SingleTableAnalysisResult :=
  fun _ => Except.ok ⟨some [⟨"bogus", none, "Anomaly", "d", "Low", "c", "i", "r"⟩],
    some [], some [], some [⟨"t1", "cid"⟩, ⟨"ghost", "gid"⟩], some (-1)⟩

/-- A `JSON.parse` outcome keyed on the response body, giving the two `dup`
tables different analyses. -/
def parseDup : String → Except String SingleTableAnalysisResult :=
  fun s =>
    if s == "{1}" then
      Except.ok ⟨some [⟨"dup", none, "Anomaly", "first", "Low", "c", "i", "r"⟩], some [], some [], some [], some 1⟩
    else
      Except.ok ⟨some [], some [], some [], some [], some 2⟩

/-- A `JSON.parse` for the `{rule, tables}[]` shape that always fails. -/
def parseItemsBad : String → Except String (List RuleMapItem) :=
  fun _ => Except.error "Unexpected token"

/-- The issue reported by `parseScoreNeg` after the defensive overwrite for `t2`. -/
def fixedIssueT2 : Issue := ⟨"t2", none, "Anomaly", "d", "Low", "c", "i", "r"⟩

/-! Lemmas about the `Map` lookup. -/

/-- Looking a key up finds the value of its last entry: any entries behind it
with other keys are irrelevant. -/
theorem jsMapGet_last_entry (l₁ l₂ : List (String × SingleTableAnalysisResult))
    (key : String) (r : SingleTableAnalysisResult)
    (h : ∀ p ∈ l₂, p.1 ≠ key) :
    jsMapGet (l₁ ++ (key, r) :: l₂) key = some r := by
  have h2 : List.find? (fun p => p.1 == key) l₂.reverse = none := by
    rw [List.find?_eq_none]
    intro x hx
    simp only [List.mem_reverse] at hx
    simp [h x hx]
  simp [jsMapGet, List.find?_append, h2]

/-- A present key is found. -/
theorem jsMapGet_mem_isSome (entries : List (String × SingleTableAnalysisResult))
    (key : String) (r : SingleTableAnalysisResult) (h : (key, r) ∈ entries) :
    ∃ r', jsMapGet entries key = some r' := by
  have hsome : (entries.reverse.find? (fun p => p.1 == key)).isSome := by
    rw [List.find?_isSome]
    exact ⟨(key, r), by simpa using h, by simp⟩
  obtain ⟨p, hp⟩ := Option.isSome_iff_exists.mp hsome
  exact ⟨p.2, by rw [jsMapGet, hp]; rfl⟩

/-! Lemmas about `analyzeSingleTable`. -/

/-- The key of the returned tuple is always the table's name. -/
theorem analyzeSingleTable_key_eq (parse : String → Except String SingleTableAnalysisResult)
    (table : TableInput) (names : List String) (rules hist : String)
    (calls : Nat → CallResult) (jitter : Nat) :
    (analyzeSingleTable parse table names rules hist calls jitter).key = table.name := by
  unfold analyzeSingleTable
  split
  · rfl
  · split
    · rfl
    · split <;> rfl

/-- When any step of the try-block raises, `analyzeSingleTable` returns the
degraded error result carrying the raised message. -/
theorem analyzeSingleTable_of_failure (parse : String → Except String SingleTableAnalysisResult)
    (table : TableInput) (names : List String) (rules hist : String)
    (calls : Nat → CallResult) (jitter : Nat) (msg : String)
    (h : singleTableFailure parse calls jitter = some msg) :
    analyzeSingleTable parse table names rules hist calls jitter =
      ⟨table.name, analysisErrorResult table msg,
        (generateContentWithRetry calls 3 2000 jitter).attempts⟩ := by
  unfold singleTableFailure at h
  unfold analyzeSingleTable
  split at h
  · simp only [Option.some.injEq] at h
    rw [h]
  · split at h
    · next hguard =>
      simp only [Option.some.injEq] at h
      rw [if_pos hguard, h]
    · next hguard =>
      rw [if_neg hguard]
      split at h
      · simp only [Option.some.injEq] at h
        rw [h]
      · exact absurd h (by simp)

/-- Every issue in the result of `analyzeSingleTable` carries the table's own
name, on the success path by the defensive overwrite and on the failure path by
construction of the synthetic issue. -/
theorem analyzeSingleTable_issue_name (parse : String → Except String SingleTableAnalysisResult)
    (table : TableInput) (names : List String) (rules hist : String)
    (calls : Nat → CallResult) (jitter : Nat) :
    ∀ issue ∈ (analyzeSingleTable parse table names rules hist calls
        jitter).result.issues_detected.getD [],
      issue.table_name = table.name := by
  unfold analyzeSingleTable
  split
  · intro issue hissue
    simp [analysisErrorResult] at hissue
    rw [hissue]
  · split
    · intro issue hissue
      simp [analysisErrorResult] at hissue
      rw [hissue]
    · split
      · intro issue hissue
        simp [analysisErrorResult] at hissue
        rw [hissue]
      · next result _ =>
        intro issue hissue
        cases hid : result.issues_detected with
        | none => simp [hid] at hissue
        | some is =>
          simp [hid] at hissue
          obtain ⟨i, _, hi⟩ := hissue
          rw [← hi]

/-! Lemmas about the merge loop. -/

theorem accAppend_empty_right (a : MergeAcc) : accAppend a emptyMergeAcc = a := by
  cases a
  simp [accAppend, emptyMergeAcc]

theorem accAppend_empty_left (a : MergeAcc) : accAppend emptyMergeAcc a = a := by
  cases a
  simp [accAppend, emptyMergeAcc]

theorem accAppend_assoc (a b c : MergeAcc) :
    accAppend (accAppend a b) c = accAppend a (accAppend b c) := by
  cases a
  cases b
  cases c
  simp [accAppend]

/-- One merge iteration appends exactly that table's contribution. -/
theorem mergeStep_eq (entries : List (String × SingleTableAnalysisResult))
    (allTableNames : List String) (acc : MergeAcc) (table : TableInput) :
    mergeStep entries allTableNames acc table =
      accAppend acc (tableContribution entries allTableNames table) := by
  unfold mergeStep tableContribution
  cases h : jsMapGet entries table.name
  · exact (accAppend_empty_right acc).symm
  · rfl

/-- The whole merge loop concatenates the per-table contributions in input
order. -/
theorem foldl_mergeStep (entries : List (String × SingleTableAnalysisResult))
    (allTableNames : List String) :
    ∀ (tables : List TableInput) (acc : MergeAcc),
      tables.foldl (mergeStep entries allTableNames) acc =
        accAppend acc (totalContribution entries allTableNames tables)
  | [], acc => by
    simp [totalContribution, accAppend_empty_right]
  | t :: ts, acc => by
    rw [List.foldl_cons, foldl_mergeStep entries allTableNames ts, mergeStep_eq]
    rw [accAppend_assoc]
    rfl

/-- The componentwise form of the total contribution. -/
theorem totalContribution_eq (entries : List (String × SingleTableAnalysisResult))
    (allTableNames : List String) :
    ∀ tables : List TableInput,
      totalContribution entries allTableNames tables =
        ⟨(tables.map (fun t => (tableContribution entries allTableNames t).issues)).flatten,
         (tables.map (fun t => (tableContribution entries allTableNames t).effectiveness)).flatten,
         (tables.map (fun t => (tableContribution entries allTableNames t).conflicts)).flatten,
         (tables.map (fun t => (tableContribution entries allTableNames t).nodes)).flatten,
         (tables.map (fun t => (tableContribution entries allTableNames t).edges)).flatten,
         (tables.map (fun t => (tableContribution entries allTableNames t).hotspots)).flatten⟩
  | [] => rfl
  | t :: ts => by
    show accAppend (tableContribution entries allTableNames t)
        (totalContribution entries allTableNames ts) = _
    rw [totalContribution_eq entries allTableNames ts]
    simp [accAppend]

/-! Lemmas about the entry list. -/

/-- The entry list is the tables' names paired with their own analysis results. -/
theorem tableEntries_eq (parse : String → Except String SingleTableAnalysisResult)
    (inputs : DataQualityInputs) (ruleMap : GlobalRuleMap)
    (remote : TableInput → Nat → CallResult) (jitter : TableInput → Nat) :
    tableEntries parse inputs ruleMap remote jitter =
      inputs.tables.map (fun t =>
        (t.name, (ownRun parse inputs ruleMap remote jitter t).result)) := by
  unfold tableEntries tableRuns
  rw [List.map_map]
  apply List.map_congr_left
  intro t _
  simp only [Function.comp]
  rw [analyzeSingleTable_key_eq]
  rfl

/-- Every table of the run has an entry, hence a `Map` lookup result. -/
theorem tableEntries_lookup_isSome (parse : String → Except String SingleTableAnalysisResult)
    (inputs : DataQualityInputs) (ruleMap : GlobalRuleMap)
    (remote : TableInput → Nat → CallResult) (jitter : TableInput → Nat)
    (t : TableInput) (h : t ∈ inputs.tables) :
    ∃ r, jsMapGet (tableEntries parse inputs ruleMap remote jitter) t.name = some r := by
  apply jsMapGet_mem_isSome _ _ (ownRun parse inputs ruleMap remote jitter t).result
  rw [tableEntries_eq]
  exact List.mem_map_of_mem _ h

/-- The lookup for the name of a table whose later (same-run) entries all have
other names is that table's own result: the last same-named entry wins. -/
theorem tableEntries_lookup_last (parse : String → Except String SingleTableAnalysisResult)
    (inputs : DataQualityInputs) (ruleMap : GlobalRuleMap)
    (remote : TableInput → Nat → CallResult) (jitter : TableInput → Nat)
    (s u : List TableInput) (tk : TableInput)
    (hsplit : inputs.tables = s ++ tk :: u)
    (hlast : ∀ t' ∈ u, t'.name ≠ tk.name) :
    jsMapGet (tableEntries parse inputs ruleMap remote jitter) tk.name =
      some (ownRun parse inputs ruleMap remote jitter tk).result := by
  rw [tableEntries_eq]
  rw [hsplit, List.map_append, List.map_cons]
  apply jsMapGet_last_entry
  intro p hp
  obtain ⟨t', ht', hpt⟩ := List.mem_map.mp hp
  rw [← hpt]
  exact hlast t' ht'

/-- With pairwise-distinct table names, each table's lookup is its own result. -/
theorem tableEntries_lookup_nodup (parse : String → Except String SingleTableAnalysisResult)
    (inputs : DataQualityInputs) (ruleMap : GlobalRuleMap)
    (remote : TableInput → Nat → CallResult) (jitter : TableInput → Nat)
    (hnd : (inputs.tables.map (fun t => t.name)).Nodup)
    (t : TableInput) (h : t ∈ inputs.tables) :
    jsMapGet (tableEntries parse inputs ruleMap remote jitter) t.name =
      some (ownRun parse inputs ruleMap remote jitter t).result := by
  obtain ⟨s, u, hsplit⟩ := List.append_of_mem h
  apply tableEntries_lookup_last parse inputs ruleMap remote jitter s u t hsplit
  intro t' ht' hne
  rw [hsplit, List.map_append, List.map_cons] at hnd
  have hnotin : t.name ∉ u.map (fun x => x.name) :=
    (List.nodup_cons.mp (hnd.of_append_right)).1
  exact hnotin (hne ▸ List.mem_map_of_mem _ ht')

/-! The closed form of the aggregation. -/

/-- For a non-empty table list, `analyzeDataQuality` returns the componentwise
concatenation of the per-table contributions in input order, and the total
remote attempt count of the launched analyses. -/
theorem analyzeDataQuality_eq (parse : String → Except String SingleTableAnalysisResult)
    (inputs : DataQualityInputs) (ruleMap : GlobalRuleMap)
    (remote : TableInput → Nat → CallResult) (jitter : TableInput → Nat)
    (hne : inputs.tables ≠ []) :
    analyzeDataQuality parse inputs ruleMap remote jitter =
      ⟨⟨(inputs.tables.map (fun t => (tableContribution
            (tableEntries parse inputs ruleMap remote jitter)
            (inputs.tables.map (fun x => x.name)) t).issues)).flatten,
        (inputs.tables.map (fun t => (tableContribution
            (tableEntries parse inputs ruleMap remote jitter)
            (inputs.tables.map (fun x => x.name)) t).effectiveness)).flatten,
        (inputs.tables.map (fun t => (tableContribution
            (tableEntries parse inputs ruleMap remote jitter)
            (inputs.tables.map (fun x => x.name)) t).conflicts)).flatten,
        if ((inputs.tables.map (fun t => (tableContribution
              (tableEntries parse inputs ruleMap remote jitter)
              (inputs.tables.map (fun x => x.name)) t).nodes)).flatten).length > 0 then
          some ⟨(inputs.tables.map (fun t => (tableContribution
                  (tableEntries parse inputs ruleMap remote jitter)
                  (inputs.tables.map (fun x => x.name)) t).nodes)).flatten,
                (inputs.tables.map (fun t => (tableContribution
                  (tableEntries parse inputs ruleMap remote jitter)
                  (inputs.tables.map (fun x => x.name)) t).edges)).flatten,
                (inputs.tables.map (fun t => (tableContribution
                  (tableEntries parse inputs ruleMap remote jitter)
                  (inputs.tables.map (fun x => x.name)) t).hotspots)).flatten⟩
        else none⟩,
       ((tableRuns parse inputs ruleMap remote jitter).map (fun r => r.attempts)).sum⟩ := by
  simp only [analyzeDataQuality]
  rw [if_neg (by simp [List.isEmpty_iff, hne])]
  rw [foldl_mergeStep, accAppend_empty_left, totalContribution_eq]
  rfl

/-! Small list helpers and contribution shapes. -/

theorem flatten_map_singleton {α β : Type} (l : List α) (f : α → β) :
    (l.map (fun a => [f a])).flatten = l.map f := by
  induction l with
  | nil => rfl
  | cons a as ih => simp [ih]

theorem flatten_map_toList {α β : Type} (l : List α) (g : α → Option β) :
    (l.map (fun a => (g a).toList)).flatten = l.filterMap g := by
  induction l with
  | nil => rfl
  | cons a as ih => cases h : g a <;> simp [h, ih]

/-- Every table of the run contributes exactly its own node. -/
theorem tableContribution_nodes (parse : String → Except String SingleTableAnalysisResult)
    (inputs : DataQualityInputs) (ruleMap : GlobalRuleMap)
    (remote : TableInput → Nat → CallResult) (jitter : TableInput → Nat)
    (allTableNames : List String) (t : TableInput) (h : t ∈ inputs.tables) :
    (tableContribution (tableEntries parse inputs ruleMap remote jitter) allTableNames t).nodes =
      [⟨t.name, t.name⟩] := by
  obtain ⟨r, hr⟩ := tableEntries_lookup_isSome parse inputs ruleMap remote jitter t h
  simp [tableContribution, hr]

/-- The flattened node contributions are one node per table, in input order. -/
theorem nodes_flatten_eq (parse : String → Except String SingleTableAnalysisResult)
    (inputs : DataQualityInputs) (ruleMap : GlobalRuleMap)
    (remote : TableInput → Nat → CallResult) (jitter : TableInput → Nat)
    (allTableNames : List String) :
    (inputs.tables.map (fun t => (tableContribution
        (tableEntries parse inputs ruleMap remote jitter) allTableNames t).nodes)).flatten =
      inputs.tables.map (fun t => (⟨t.name, t.name⟩ : SchemaNode)) := by
  have h1 : inputs.tables.map (fun t => (tableContribution
      (tableEntries parse inputs ruleMap remote jitter) allTableNames t).nodes) =
      inputs.tables.map (fun t => [(⟨t.name, t.name⟩ : SchemaNode)]) :=
    List.map_congr_left (fun t ht =>
      tableContribution_nodes parse inputs ruleMap remote jitter allTableNames t ht)
  rw [h1, flatten_map_singleton]

theorem nodes_flatten_length_pos (parse : String → Except String SingleTableAnalysisResult)
    (inputs : DataQualityInputs) (ruleMap : GlobalRuleMap)
    (remote : TableInput → Nat → CallResult) (jitter : TableInput → Nat)
    (allTableNames : List String) (hne : inputs.tables ≠ []) :
    ((inputs.tables.map (fun t => (tableContribution
        (tableEntries parse inputs ruleMap remote jitter) allTableNames t).nodes)).flatten).length
      > 0 := by
  rw [nodes_flatten_eq]
  simpa [List.length_pos] using hne

/-- With pairwise-distinct names, a table's contribution is built from its own
analysis result. -/
theorem tableContribution_own (parse : String → Except String SingleTableAnalysisResult)
    (inputs : DataQualityInputs) (ruleMap : GlobalRuleMap)
    (remote : TableInput → Nat → CallResult) (jitter : TableInput → Nat)
    (allTableNames : List String)
    (hnd : (inputs.tables.map (fun t => t.name)).Nodup)
    (t : TableInput) (ht : t ∈ inputs.tables) :
    tableContribution (tableEntries parse inputs ruleMap remote jitter) allTableNames t =
      { issues := (ownRun parse inputs ruleMap remote jitter t).result.issues_detected.getD []
        effectiveness :=
          (ownRun parse inputs ruleMap remote jitter t).result.rule_effectiveness.getD []
        conflicts := (ownRun parse inputs ruleMap remote jitter t).result.rule_conflicts.getD []
        nodes := [⟨t.name, t.name⟩]
        edges := (((ownRun parse inputs ruleMap remote jitter
              t).result.inferred_relationships.getD []).filter
            (fun rel => allTableNames.contains rel.to_table)).map
          (fun rel => ⟨t.name, rel.to_table, rel.on_column⟩)
        hotspots := ((ownRun parse inputs ruleMap remote jitter t).result.hotspot_score.map
          (fun score => (⟨t.name, score⟩ : Hotspot))).toList } := by
  have hl := tableEntries_lookup_nodup parse inputs ruleMap remote jitter hnd t ht
  unfold tableContribution
  rw [hl]
  cases h : (ownRun parse inputs ruleMap remote jitter t).result.hotspot_score <;> simp [h]

/-! The claims. -/

/-- C3: if every remote attempt throws an error whose message contains `429`
or `RESOURCE_EXHAUSTED`, `generateContentWithRetry` at the configured bound of
3 attempts with initial delay 2000ms (plus jitter) makes exactly 3 attempts,
sleeps between attempts with an exponentially doubling backoff delay, and
after the last attempt re-throws the last captured error. -/
theorem generateContentWithRetry_rate_limit_bound (msgs : Nat → String) (jitter : Nat)
    (h : ∀ i, isRateLimitMessage (msgs i) = true) :
    generateContentWithRetry (fun i => CallResult.failure (msgs i)) 3 2000 jitter =
      ⟨Except.error (some (msgs 2)), 3,
        [2000 + jitter, (2000 + jitter) * 2, (2000 + jitter) * 2 * 2]⟩ := by
  simp [generateContentWithRetry, retryGo, h 0, h 1, h 2]

/-- C3 witness: a stub that always throws `429` is retried exactly 3 times,
with sleeps 2000ms, 4000ms, 8000ms, and the error finally re-thrown. -/
theorem generateContentWithRetry_rate_limit_bound_witness :
    generateContentWithRetry callsAll429 3 2000 0 =
      ⟨Except.error (some "429"), 3, [2000, 2000 * 2, 2000 * 2 * 2]⟩ := by
  have h429 : isRateLimitMessage "429" = true := by decide
  have h := generateContentWithRetry_rate_limit_bound (fun _ => "429") 0 (fun _ => h429)
  simpa [callsAll429] using h

/-- C4: an error without the rate-limit signal on the first attempt is
propagated after exactly 1 attempt, with no retry and no backoff sleep. -/
theorem generateContentWithRetry_fast_fail (calls : Nat → CallResult) (msg : String)
    (jitter : Nat) (h0 : calls 0 = CallResult.failure msg)
    (hmsg : isRateLimitMessage msg = false) :
    generateContentWithRetry calls 3 2000 jitter =
      ⟨Except.error (some msg), 1, []⟩ := by
  simp [generateContentWithRetry, retryGo, h0, hmsg]

/-- C4 witness: a stub throwing a non-429 error fails after one attempt. -/
theorem generateContentWithRetry_fast_fail_witness :
    generateContentWithRetry callsAuth 3 2000 0 =
      ⟨Except.error (some "auth error"), 1, []⟩ :=
  generateContentWithRetry_fast_fail callsAuth "auth error" 0 rfl (by decide)

/-- C5: every issue in the result returned by `analyzeSingleTable` carries the
owning table's name — on the success path the analyzer overwrites whatever
`table_name` the model reported (different or missing) with the table's own
name before returning. -/
theorem analyzeSingleTable_table_name_enforced
    (parse : String → Except String SingleTableAnalysisResult)
    (table : TableInput) (names : List String) (rules hist : String)
    (calls : Nat → CallResult) (jitter : Nat) :
    ∀ issue ∈ (analyzeSingleTable parse table names rules hist calls
        jitter).result.issues_detected.getD [],
      issue.table_name = table.name :=
  analyzeSingleTable_issue_name parse table names rules hist calls jitter

/-- C5 witness: the model reported `table_name = "bogus"` for an issue of `t2`;
the returned issue carries `t2`. -/
theorem analyzeSingleTable_table_name_enforced_witness :
    fixedIssueT2.table_name = "t2" :=
  analyzeSingleTable_table_name_enforced parseScoreNeg tableTwo ["t1", "t2"] "" ""
    callsOk 0 fixedIssueT2 (by decide)

/-- C7: `mapGlobalRulesToTables` never fails: empty or whitespace-only global
rules, or an empty table list, short-circuit to the empty map with zero remote
calls, and a remote or parse failure is caught and yields the empty map. -/
theorem mapGlobalRulesToTables_never_fails
    (parseItems : String → Except String (List RuleMapItem))
    (tables : List TableInput) (globalRules : String)
    (calls : Nat → CallResult) (jitter : Nat) :
    ((jsTrim globalRules = "" ∨ tables = []) →
      mapGlobalRulesToTables parseItems tables globalRules calls jitter = ⟨[], 0⟩)
    ∧ (∀ e, (generateContentWithRetry calls 3 2000 jitter).result = Except.error e →
        (mapGlobalRulesToTables parseItems tables globalRules calls jitter).ruleMap = [])
    ∧ (∀ resp msg, (generateContentWithRetry calls 3 2000 jitter).result = Except.ok resp →
        parseItems (jsTrim resp.text) = Except.error msg →
        (mapGlobalRulesToTables parseItems tables globalRules calls jitter).ruleMap = []) := by
  refine ⟨?_, ?_, ?_⟩
  · intro h
    have hcond : (globalRules == "" || jsTrim globalRules == "" || tables.length == 0) = true := by
      rcases h with h | h
      · simp [h]
      · simp [h]
    unfold mapGlobalRulesToTables
    rw [if_pos hcond]
  · intro e he
    unfold mapGlobalRulesToTables
    split
    · rfl
    · rw [he]
  · intro resp msg hok hparse
    unfold mapGlobalRulesToTables
    split
    · rfl
    · rw [hok]
      dsimp only
      rw [hparse]

/-- C7 witness: empty rules and empty table list yield the empty map with zero
remote calls. -/
theorem mapGlobalRulesToTables_never_fails_witness :
    mapGlobalRulesToTables parseItemsBad [] "" callsAuth 0 = ⟨[], 0⟩ :=
  (mapGlobalRulesToTables_never_fails parseItemsBad [] "" callsAuth 0).1 (Or.inr rfl)

/-- C8: an empty table list short-circuits to the empty aggregate with `null`
visualization data and zero remote calls. -/
theorem analyzeDataQuality_empty_input
    (parse : String → Except String SingleTableAnalysisResult)
    (ruleMap : GlobalRuleMap) (remote : TableInput → Nat → CallResult)
    (jitter : TableInput → Nat) (rules history : String) :
    analyzeDataQuality parse ⟨[], rules, history⟩ ruleMap remote jitter =
      ⟨⟨[], [], [], none⟩, 0⟩ := rfl

/-- C2: for a non-empty table list with pairwise-distinct names, the aggregate
issues, rule-effectiveness and rule-conflict arrays returned by
`analyzeDataQuality` are the concatenation of each table's own contribution in
the original input order (items within one table's contribution keep the order
the model returned); completion order of the concurrent analyses cannot
influence this, since the merge iterates the input list over name-keyed
results. -/
theorem analyzeDataQuality_input_order
    (parse : String → Except String SingleTableAnalysisResult)
    (inputs : DataQualityInputs) (ruleMap : GlobalRuleMap)
    (remote : TableInput → Nat → CallResult) (jitter : TableInput → Nat)
    (hnd : (inputs.tables.map (fun t => t.name)).Nodup)
    (hne : inputs.tables ≠ []) :
    (analyzeDataQuality parse inputs ruleMap remote jitter).result.issues =
      (inputs.tables.map (fun t =>
        (ownRun parse inputs ruleMap remote jitter t).result.issues_detected.getD [])).flatten
    ∧ (analyzeDataQuality parse inputs ruleMap remote jitter).result.ruleEffectiveness =
      (inputs.tables.map (fun t =>
        (ownRun parse inputs ruleMap remote jitter t).result.rule_effectiveness.getD [])).flatten
    ∧ (analyzeDataQuality parse inputs ruleMap remote jitter).result.ruleConflicts =
      (inputs.tables.map (fun t =>
        (ownRun parse inputs ruleMap remote jitter t).result.rule_conflicts.getD [])).flatten := by
  rw [analyzeDataQuality_eq parse inputs ruleMap remote jitter hne]
  refine ⟨?_, ?_, ?_⟩
  · exact congrArg List.flatten (List.map_congr_left (fun t ht => by
      rw [tableContribution_own parse inputs ruleMap remote jitter _ hnd t ht]))
  · exact congrArg List.flatten (List.map_congr_left (fun t ht => by
      rw [tableContribution_own parse inputs ruleMap remote jitter _ hnd t ht]))
  · exact congrArg List.flatten (List.map_congr_left (fun t ht => by
      rw [tableContribution_own parse inputs ruleMap remote jitter _ hnd t ht]))

/-- C2 witness: a two-table run, aggregate issues are table one's contribution
followed by table two's. -/
theorem analyzeDataQuality_input_order_witness :
    (analyzeDataQuality parseScoreNeg dqInputsTwo [] remoteAllOk jitterZero).result.issues =
      ((ownRun parseScoreNeg dqInputsTwo [] remoteAllOk jitterZero
          tableOne).result.issues_detected.getD []) ++
      ((ownRun parseScoreNeg dqInputsTwo [] remoteAllOk jitterZero
          tableTwo).result.issues_detected.getD []) := by
  have h := (analyzeDataQuality_input_order parseScoreNeg dqInputsTwo [] remoteAllOk
    jitterZero (by decide) (by decide)).1
  simpa [dqInputsTwo] using h

/-- C6: in the visualization dataset every edge's target is one of the run's
table names (a relationship to an unknown table produces no edge), while every
reporting table keeps its node `{id: name, label: name}`. -/
theorem analyzeDataQuality_edge_filtering
    (parse : String → Except String SingleTableAnalysisResult)
    (inputs : DataQualityInputs) (ruleMap : GlobalRuleMap)
    (remote : TableInput → Nat → CallResult) (jitter : TableInput → Nat)
    (hne : inputs.tables ≠ []) :
    ∃ viz, (analyzeDataQuality parse inputs ruleMap remote
        jitter).result.schemaVisualizationData = some viz
      ∧ (∀ e ∈ viz.edges, e.to_ ∈ inputs.tables.map (fun t => t.name))
      ∧ viz.nodes = inputs.tables.map (fun t => (⟨t.name, t.name⟩ : SchemaNode)) := by
  rw [analyzeDataQuality_eq parse inputs ruleMap remote jitter hne]
  rw [if_pos (nodes_flatten_length_pos parse inputs ruleMap remote jitter _ hne)]
  refine ⟨_, rfl, ?_, nodes_flatten_eq parse inputs ruleMap remote jitter _⟩
  intro e he
  rw [List.mem_flatten] at he
  obtain ⟨l, hl, hel⟩ := he
  obtain ⟨t, _, rfl⟩ := List.mem_map.mp hl
  unfold tableContribution at hel
  cases hres : jsMapGet (tableEntries parse inputs ruleMap remote jitter) t.name with
  | none => rw [hres] at hel; simp [emptyMergeAcc] at hel
  | some r =>
    rw [hres] at hel
    simp only [List.mem_map] at hel
    obtain ⟨rel, hrel, rfl⟩ := hel
    have hcontains := (List.mem_filter.mp hrel).2
    obtain ⟨b, hb, hbeq⟩ := List.contains_iff_exists_mem_beq.mp hcontains
    exact (beq_iff_eq.mp hbeq) ▸ hb

/-- C6 witness: with a reported relationship to the known `t1` and the unknown
`ghost`, both tables keep their nodes (and, by the theorem, no edge leaves the
name set). -/
theorem analyzeDataQuality_edge_filtering_witness :
    ((analyzeDataQuality parseScoreNeg dqInputsTwo [] remoteAllOk
        jitterZero).result.schemaVisualizationData).map (fun v => v.nodes) =
      some [⟨"t1", "t1"⟩, ⟨"t2", "t2"⟩] := by
  obtain ⟨viz, hv, -, hn⟩ := analyzeDataQuality_edge_filtering parseScoreNeg dqInputsTwo []
    remoteAllOk jitterZero (by decide)
  rw [hv]
  simp [hn, dqInputsTwo, tableOne, tableTwo]

/-- C9 counterexample: with two input tables, where `t1`'s remote call throws a
non-retryable error (so its degraded result defines no `hotspot_score`) and
`t2`'s analysis reports the score `-1`, the hotspots array has one entry, not
one per input table, and its score is negative. -/
theorem analyzeDataQuality_hotspots_counterexample :
    ¬ ((((analyzeDataQuality parseScoreNeg dqInputsTwo [] remoteMixed
            jitterZero).result.schemaVisualizationData).map
          (fun v => v.hotspots.length) = some dqInputsTwo.tables.length)
       ∧ (∀ h ∈ (((analyzeDataQuality parseScoreNeg dqInputsTwo [] remoteMixed
            jitterZero).result.schemaVisualizationData).map
          (fun v => v.hotspots)).getD [], (0 : Int) ≤ h.score)) := by
  decide

/-- C9 (amended): for distinct table names, the hotspots array contains, in
input order, exactly one entry for each table whose analysis result defines a
`hotspot_score`, carrying that score unvalidated (it may be negative); a table
whose result lacks the score — in particular the degraded error result —
contributes no entry. -/
theorem analyzeDataQuality_hotspots_per_score
    (parse : String → Except String SingleTableAnalysisResult)
    (inputs : DataQualityInputs) (ruleMap : GlobalRuleMap)
    (remote : TableInput → Nat → CallResult) (jitter : TableInput → Nat)
    (hnd : (inputs.tables.map (fun t => t.name)).Nodup)
    (hne : inputs.tables ≠ []) :
    ∃ viz, (analyzeDataQuality parse inputs ruleMap remote
        jitter).result.schemaVisualizationData = some viz
      ∧ viz.hotspots = inputs.tables.filterMap (fun t =>
          ((ownRun parse inputs ruleMap remote jitter t).result.hotspot_score).map
            (fun score => (⟨t.name, score⟩ : Hotspot))) := by
  rw [analyzeDataQuality_eq parse inputs ruleMap remote jitter hne]
  rw [if_pos (nodes_flatten_length_pos parse inputs ruleMap remote jitter _ hne)]
  refine ⟨_, rfl, ?_⟩
  have h1 : inputs.tables.map (fun t => (tableContribution
      (tableEntries parse inputs ruleMap remote jitter)
      (inputs.tables.map (fun x => x.name)) t).hotspots) =
      inputs.tables.map (fun t =>
        (((ownRun parse inputs ruleMap remote jitter t).result.hotspot_score).map
          (fun score => (⟨t.name, score⟩ : Hotspot))).toList) :=
    List.map_congr_left (fun t ht => by
      rw [tableContribution_own parse inputs ruleMap remote jitter _ hnd t ht])
  show (inputs.tables.map (fun t => (tableContribution
      (tableEntries parse inputs ruleMap remote jitter)
      (inputs.tables.map (fun x => x.name)) t).hotspots)).flatten = _
  rw [h1, flatten_map_toList]

/-- C9 (amended) witness: `t1` fails (no hotspot entry), `t2` reports `-1`;
the hotspots array is exactly `[{tableName: t2, score: -1}]`. -/
theorem analyzeDataQuality_hotspots_per_score_witness :
    ((analyzeDataQuality parseScoreNeg dqInputsTwo [] remoteMixed
        jitterZero).result.schemaVisualizationData).map (fun v => v.hotspots) =
      some [⟨"t2", -1⟩] := by
  obtain ⟨viz, hv, hh⟩ := analyzeDataQuality_hotspots_per_score parseScoreNeg dqInputsTwo []
    remoteMixed jitterZero (by decide) (by decide)
  rw [hv]
  simp only [Option.map_some']
  rw [hh]
  decide

/-- C10: with duplicated table names, the `Map` keyed by name assigns every
same-named entry the single result of the last-launched analysis for that name,
and the merge loop still emits the (shared) looked-up contribution once per
input entry. -/
theorem analyzeDataQuality_duplicate_names_last_wins
    (parse : String → Except String SingleTableAnalysisResult)
    (inputs : DataQualityInputs) (ruleMap : GlobalRuleMap)
    (remote : TableInput → Nat → CallResult) (jitter : TableInput → Nat)
    (s u : List TableInput) (tk : TableInput)
    (hsplit : inputs.tables = s ++ tk :: u)
    (hlast : ∀ t' ∈ u, t'.name ≠ tk.name) :
    (∀ t ∈ inputs.tables, t.name = tk.name →
        jsMapGet (tableEntries parse inputs ruleMap remote jitter) t.name =
          some (ownRun parse inputs ruleMap remote jitter tk).result)
    ∧ (analyzeDataQuality parse inputs ruleMap remote jitter).result.issues =
        (inputs.tables.map (fun t => (tableContribution
            (tableEntries parse inputs ruleMap remote jitter)
            (inputs.tables.map (fun x => x.name)) t).issues)).flatten
    ∧ (analyzeDataQuality parse inputs ruleMap remote jitter).result.schemaVisualizationData =
        some ⟨(inputs.tables.map (fun t => (tableContribution
                (tableEntries parse inputs ruleMap remote jitter)
                (inputs.tables.map (fun x => x.name)) t).nodes)).flatten,
              (inputs.tables.map (fun t => (tableContribution
                (tableEntries parse inputs ruleMap remote jitter)
                (inputs.tables.map (fun x => x.name)) t).edges)).flatten,
              (inputs.tables.map (fun t => (tableContribution
                (tableEntries parse inputs ruleMap remote jitter)
                (inputs.tables.map (fun x => x.name)) t).hotspots)).flatten⟩ := by
  have hne : inputs.tables ≠ [] := by
    rw [hsplit]
    simp
  refine ⟨?_, ?_, ?_⟩
  · intro t _ hname
    rw [hname]
    exact tableEntries_lookup_last parse inputs ruleMap remote jitter s u tk hsplit hlast
  · rw [analyzeDataQuality_eq parse inputs ruleMap remote jitter hne]
  · rw [analyzeDataQuality_eq parse inputs ruleMap remote jitter hne]
    rw [if_pos (nodes_flatten_length_pos parse inputs ruleMap remote jitter _ hne)]

/-- C10 witness: two tables both named `dup` with different analyses; the
shared lookup is the second (last-launched) one's result, which differs from
the first one's own result. -/
theorem analyzeDataQuality_duplicate_names_last_wins_witness :
    jsMapGet (tableEntries parseDup dqInputsDup [] remoteDup jitterZero) "dup" =
      some (ownRun parseDup dqInputsDup [] remoteDup jitterZero tableDupB).result
    ∧ (ownRun parseDup dqInputsDup [] remoteDup jitterZero tableDupB).result ≠
      (ownRun parseDup dqInputsDup [] remoteDup jitterZero tableDupA).result := by
  have h := (analyzeDataQuality_duplicate_names_last_wins parseDup dqInputsDup [] remoteDup
    jitterZero [tableDupA] [] tableDupB rfl (by simp)).1 tableDupA (by decide) rfl
  exact ⟨h, by decide⟩

/-- C1: (1) whenever the per-table try-block raises (remote failure after
retries, the JSON guard, or a parse failure), `analyzeSingleTable` resolves —
never rejects — with the degraded result; (2) that degraded result has exactly
one issue, of type `Analysis Error` and severity `High`, whose description
embeds the underlying error message, and empty `rule_effectiveness` and
`rule_conflicts` arrays; for two runs over N distinct-named tables whose remote
behaviour agrees except on one table `tk`: (3) both aggregates contain a
contribution for every one of the N tables, namely that table's own analysis,
(4) the N-1 tables other than `tk` have identical results in both runs, and
(5) the aggregate issues are the concatenation of all N contributions. -/
theorem analyzeDataQuality_failure_isolation
    (parse : String → Except String SingleTableAnalysisResult)
    (inputs : DataQualityInputs) (ruleMap : GlobalRuleMap)
    (remoteA remoteB : TableInput → Nat → CallResult)
    (jitterA jitterB : TableInput → Nat) (tk : TableInput)
    (hnd : (inputs.tables.map (fun t => t.name)).Nodup)
    (hmem : tk ∈ inputs.tables)
    (hrem : ∀ t, t.name ≠ tk.name → remoteA t = remoteB t)
    (hjit : ∀ t, t.name ≠ tk.name → jitterA t = jitterB t) :
    (∀ (table : TableInput) (names : List String) (rules hist : String)
        (calls : Nat → CallResult) (jit : Nat) (msg : String),
        singleTableFailure parse calls jit = some msg →
        analyzeSingleTable parse table names rules hist calls jit =
          ⟨table.name, analysisErrorResult table msg,
            (generateContentWithRetry calls 3 2000 jit).attempts⟩)
    ∧ (∀ (table : TableInput) (msg : String),
        (analysisErrorResult table msg).issues_detected = some [{
          table_name := table.name
          column_name := none
          type := "Analysis Error"
          description := "Failed to analyze this table. Error: " ++ msg
          severity := "High"
          possible_cause := "API error or malformed response."
          impact := "No data quality insights are available for this table."
          recommendation := "Check the browser console for details and try the analysis again." }]
        ∧ (analysisErrorResult table msg).rule_effectiveness = some []
        ∧ (analysisErrorResult table msg).rule_conflicts = some [])
    ∧ (∀ t ∈ inputs.tables,
        jsMapGet (tableEntries parse inputs ruleMap remoteA jitterA) t.name =
          some (ownRun parse inputs ruleMap remoteA jitterA t).result
        ∧ jsMapGet (tableEntries parse inputs ruleMap remoteB jitterB) t.name =
          some (ownRun parse inputs ruleMap remoteB jitterB t).result)
    ∧ (∀ t ∈ inputs.tables, t.name ≠ tk.name →
        ownRun parse inputs ruleMap remoteA jitterA t =
          ownRun parse inputs ruleMap remoteB jitterB t)
    ∧ (analyzeDataQuality parse inputs ruleMap remoteA jitterA).result.issues =
        (inputs.tables.map (fun t =>
          (ownRun parse inputs ruleMap remoteA jitterA
            t).result.issues_detected.getD [])).flatten := by
  refine ⟨?_, ?_, ?_, ?_, ?_⟩
  · intro table names rules hist calls jit msg h
    exact analyzeSingleTable_of_failure parse table names rules hist calls jit msg h
  · intro table msg
    exact ⟨rfl, rfl, rfl⟩
  · intro t ht
    exact ⟨tableEntries_lookup_nodup parse inputs ruleMap remoteA jitterA hnd t ht,
           tableEntries_lookup_nodup parse inputs ruleMap remoteB jitterB hnd t ht⟩
  · intro t _ hname
    unfold ownRun
    rw [hrem t hname, hjit t hname]
  · have hne : inputs.tables ≠ [] := List.ne_nil_of_mem hmem
    rw [analyzeDataQuality_eq parse inputs ruleMap remoteA jitterA hne]
    exact congrArg List.flatten (List.map_congr_left (fun t ht => by
      rw [tableContribution_own parse inputs ruleMap remoteA jitterA _ hnd t ht]))

/-- C1 witness: in a two-table run where `t1`'s remote call always throws the
non-retryable `boom`, the aggregate's contribution for `t1` is exactly the
degraded `Analysis Error` result. -/
theorem analyzeDataQuality_failure_isolation_witness :
    jsMapGet (tableEntries parseEmptyOk dqInputsTwo [] remoteMixed jitterZero) "t1" =
      some (analysisErrorResult tableOne "boom") := by
  have h := analyzeDataQuality_failure_isolation parseEmptyOk dqInputsTwo [] remoteMixed
    remoteMixed jitterZero jitterZero tableOne (by decide) (by decide)
    (fun _ _ => rfl) (fun _ _ => rfl)
  have h3 := (h.2.2.1 tableOne (by decide)).1
  have hf := h.1 tableOne (dqInputsTwo.tables.map (fun t => t.name))
    (applicableRulesFor tableOne []) dqInputsTwo.history (remoteMixed tableOne)
    (jitterZero tableOne) "boom" (by decide)
  have hres : (ownRun parseEmptyOk dqInputsTwo [] remoteMixed jitterZero tableOne).result =
      analysisErrorResult tableOne "boom" := by
    show (analyzeSingleTable parseEmptyOk tableOne (dqInputsTwo.tables.map (fun t => t.name))
      (applicableRulesFor tableOne []) dqInputsTwo.history (remoteMixed tableOne)
      (jitterZero tableOne)).result = _
    rw [hf]
  rw [hres] at h3
  exact h3

end DQBot
